import Mathlib

/-!
Shallow embedding of `services/horizon/internal/actions/account.go`:
the single-account merger (`AccountInfo`), the paginated account listing
(`GetAccountsHandler.GetResourcePage`), and the three child-record batch
loaders (`loadSigners`, `loadTrustlines`, `loadData`).

The two data stores (`core.Q`, `history.Q`), the request-decoding helpers
(`GetPageQuery`, `GetString`, `GetAsset`, `GetAccountID`) and the resource
adapter are external collaborators of this excerpt; they are modelled as
oracle structures whose fields return `Except`-style results, and the pure
resource-assembly functions are modelled from the spec (see the doc
comments on `PopulateAccountEntry` and `PopulateAccountSigner`).

Go errors produced by `errors.Wrap` keep their cause and gain one message;
they are modelled by `Err`: a base identity plus the list of wrap labels,
outermost first.  `errors.Wrap(nil, msg)` is `nil`, hence the `Option.map`
at the populate step of `AccountInfo`.
-/

set_option autoImplicit false

namespace HorizonAccounts

/-- Base identity of a Go error: a not-found signal from a store, or any
other store failure (distinguished by an arbitrary code). -/
inductive ErrBase where
  | notFound
  | queryFail (code : Nat)
deriving DecidableEq, Repr

/-- A Go error as seen through `errors.Wrap`: the underlying cause is kept
and each wrap prepends one label. -/
structure Err where
  base : ErrBase
  labels : List String
deriving DecidableEq, Repr

/-- `errors.Wrap(err, label)` for a non-nil `err`: same cause, one more
label outermost. -/
def Err.wrap (label : String) (e : Err) : Err :=
  ⟨e.base, label :: e.labels⟩

/-- Wrap labels used by `account.go` (string literals of the source). -/
def lblCoreAccountRecord : String := "getting core account record"

def lblCoreAccountData : String := "getting core account data"

def lblCoreSigner : String := "getting core signer"

def lblCoreTrustline : String := "getting core trustline"

def lblPopulatingAccount : String := "populating account"

def lblLoadingAccountRecords : String := "loading account records"

/-- `core.Account`: the authoritative per-account state row. -/
structure CoreAccount where
  accountid : String
  balance : Int
  seqnum : Int
deriving DecidableEq, Repr

/-- `core.AccountData`: one data entry row of the authoritative store. -/
structure CoreAccountData where
  accountid : String
  key : String
  value : String
deriving DecidableEq, Repr

/-- `core.Signer`: one signer row of the authoritative store. -/
structure CoreSigner where
  accountid : String
  publickey : String
  weight : Int
deriving DecidableEq, Repr

/-- `core.Trustline`: one trust-line row of the authoritative store. -/
structure CoreTrustline where
  accountid : String
  assetcode : String
  balance : Int
deriving DecidableEq, Repr

/-- `history.AccountEntry`: one base row returned by `AccountsForAsset`. -/
structure AccountEntry where
  accountID : String
  balance : Int
deriving DecidableEq, Repr

/-- `history.AccountSigner`: one signer row of the indexed store. -/
structure AccountSigner where
  account : String
  signer : String
  weight : Int
deriving DecidableEq, Repr

/-- `history.TrustLine`: one trust-line row of the indexed store. -/
structure TrustLine where
  accountID : String
  assetCode : String
  balance : Int
deriving DecidableEq, Repr

/-- `history.Data`: one data-entry row of the indexed store. -/
structure Data where
  accountID : String
  name : String
  value : String
deriving DecidableEq, Repr

/-- `protocol.Account`: the externally visible full-account resource, with
its attached child collections. -/
structure Account where
  accountID : String
  balance : Int
  signers : List AccountSigner
  trustlines : List TrustLine
  dataEntries : List Data
deriving DecidableEq, Repr

/-- `protocol.AccountSigner`: the summary resource produced in by-signer
mode. -/
structure AccountSignerResource where
  accountID : String
  signer : String
  weight : Int
deriving DecidableEq, Repr

/-- `hal.Pageable`: the heterogeneous page element — either a full account
resource (by-asset mode) or a signer summary (by-signer mode). -/
inductive Pageable where
  | account (a : Account)
  | accountSigner (s : AccountSignerResource)
deriving DecidableEq, Repr

/-- `db2.PageQuery`: cursor / limit / order of a page request. -/
structure PageQuery where
  cursor : String
  limit : Nat
  order : String
deriving DecidableEq, Repr

/-- `xdr.Asset` as far as this excerpt observes it. -/
structure Asset where
  assetType : String
  code : String
  issuer : String
deriving DecidableEq, Repr

/-- Oracle for the authoritative store `core.Q`: each lookup either yields
its typed rows or a store error (a missing account row surfaces as an
error whose base is `notFound`). -/
structure CoreQ where
  accountByAddress : String → Except Err CoreAccount
  allDataByAddress : String → Except Err (List CoreAccountData)
  signersByAddress : String → Except Err (List CoreSigner)
  trustlinesByAddress : String → Except Err (List CoreTrustline)

/-- Oracle for the indexed store `history.Q`. -/
structure HistoryQ where
  accountsForAsset : Asset → PageQuery → Except Err (List AccountEntry)
  accountsForSigner : String → PageQuery → Except Err (List AccountSigner)
  getAccountDataByAccountsID : List String → Except Err (List Data)
  getTrustLinesByAccountsID : List String → Except Err (List TrustLine)
  signersForAccounts : List String → Except Err (List AccountSigner)

/-- Environment of `AccountInfo`: the authoritative store plus the
resource-adapter call `resourceadapter.PopulateAccount`, which in the
source writes into the resource and returns an error; it is modelled as
an oracle yielding the resource state after the call together with the
optional error. -/
structure Env where
  cq : CoreQ
  populateAccount :
    CoreAccount → List CoreAccountData → List CoreSigner → List CoreTrustline →
      Account × Option Err

/-- Decoded request parameters, as produced by the boundary helpers
`GetPageQuery`, `GetString(r, signer-param)`, `GetAsset`, and
`GetAccountID(r, signer-param).Address()`; each may fail. -/
structure Request where
  pageQuery : Except Err PageQuery
  rawSigner : Except Err String
  asset : Except Err Asset
  signerAccountID : Except Err String

/-- Modelled from the spec: the Resource Assembler's
`MergeIndexedAccount(indexedRecord, data, signers, trustlines)`
(`resourceadapter.PopulateAccountEntry` at the call site, not part of this
excerpt): a pure mapping that shapes the base row into a full account
resource and attaches the three child collections as given. -/
def PopulateAccountEntry (record : AccountEntry) (d : List Data)
    (s : List AccountSigner) (t : List TrustLine) : Account :=
  { accountID := record.accountID
    balance := record.balance
    signers := s
    trustlines := t
    dataEntries := d }

/-- Modelled from the spec: the Resource Assembler's
`ToSignerSummary(indexedSignerRecord)`
(`resourceadapter.PopulateAccountSigner` at the call site): a pure mapping
from one indexed signer row to the summary resource. -/
def PopulateAccountSigner (record : AccountSigner) : AccountSignerResource :=
  { accountID := record.account
    signer := record.signer
    weight := record.weight }

/-- `AccountInfo(ctx, cq, addr)`: the four sequential authoritative-store
lookups, each failure wrapped with its label and returned with a nil
resource; on success the populate step runs and its result pointer is
returned together with `errors.Wrap(err, populate-label)` (which is `none`
when populate succeeds). -/
def AccountInfo (env : Env) (addr : String) : Option Account × Option Err :=
  match env.cq.accountByAddress addr with
  | .error e => (none, some (e.wrap lblCoreAccountRecord))
  | .ok coreRecord =>
    match env.cq.allDataByAddress addr with
    | .error e => (none, some (e.wrap lblCoreAccountData))
    | .ok coreData =>
      match env.cq.signersByAddress addr with
      | .error e => (none, some (e.wrap lblCoreSigner))
      | .ok coreSigners =>
        match env.cq.trustlinesByAddress addr with
        | .error e => (none, some (e.wrap lblCoreTrustline))
        | .ok coreTrustlines =>
          let populated := env.populateAccount coreRecord coreData coreSigners coreTrustlines
          (some populated.1, populated.2.map (Err.wrap lblPopulatingAccount))

/-- Go's `map[string][]T` as this code observes it: an association list
with at most one entry per key. -/
abbrev AMap (α : Type) : Type := List (String × α)

/-- Lookup `m[key]` (second component of Go's `v, ok := m[key]`
is `Option.isSome`). -/
def mapFind {α : Type} : AMap α → String → Option α
  | [], _ => none
  | (k, v) :: rest, key => if k = key then some v else mapFind rest key

/-- Assignment `m[key] = v`: replaces the binding when present, otherwise
adds one. -/
def mapInsert {α : Type} : AMap α → String → α → AMap α
  | [], key, v => [(key, v)]
  | (k, w) :: rest, key, v =>
    if k = key then (k, v) :: rest else (k, w) :: mapInsert rest key v

/-- Body of the grouping loop shared by the three loaders: append the row
to its account's list when the key is present, otherwise start a singleton
list. -/
def groupStep {α : Type} (key : α → String) (m : AMap (List α)) (record : α) :
    AMap (List α) :=
  match mapFind m (key record) with
  | some l => mapInsert m (key record) (l ++ [record])
  | none => mapInsert m (key record) [record]

/-- The grouping loop of `loadData` / `loadTrustlines` / `loadSigners`:
fold `groupStep` over the query's rows starting from the empty map. -/
def groupByKey {α : Type} (key : α → String) (records : List α) : AMap (List α) :=
  records.foldl (groupStep key) []

/-- `loadData(historyQ, accounts)`. -/
def loadData (historyQ : HistoryQ) (accounts : List String) :
    Except Err (AMap (List Data)) :=
  match historyQ.getAccountDataByAccountsID accounts with
  | .error e => .error e
  | .ok records => .ok (groupByKey (fun record => record.accountID) records)

/-- `loadTrustlines(historyQ, accounts)`. -/
def loadTrustlines (historyQ : HistoryQ) (accounts : List String) :
    Except Err (AMap (List TrustLine)) :=
  match historyQ.getTrustLinesByAccountsID accounts with
  | .error e => .error e
  | .ok records => .ok (groupByKey (fun record => record.accountID) records)

/-- `loadSigners(historyQ, accounts)`. -/
def loadSigners (historyQ : HistoryQ) (accounts : List String) :
    Except Err (AMap (List AccountSigner)) :=
  match historyQ.signersForAccounts accounts with
  | .error e => .error e
  | .ok records => .ok (groupByKey (fun record => record.account) records)

/-- The `accountIDS` slice built at lines 100–103 of `account.go`: one
identifier appended per base row. -/
def accountIDS (records : List AccountEntry) : List String :=
  records.map (fun record => record.accountID)

/-- `GetAccountsHandler.GetResourcePage`: decode the page query and the
signer parameter; with no signer, run by-asset mode (base query, early
return on zero rows, the three batch loads over `accountIDS`, then one
full-account resource per base row with absent children defaulted to
empty lists); with a signer, run by-signer mode (base query, one signer
summary per row). -/
def GetResourcePage (handler : HistoryQ) (r : Request) : Except Err (List Pageable) :=
  match r.pageQuery with
  | .error e => .error e
  | .ok pq =>
    match r.rawSigner with
    | .error e => .error e
    | .ok rawSigner =>
      if rawSigner.length = 0 then
        match r.asset with
        | .error e => .error e
        | .ok asset =>
          match handler.accountsForAsset asset pq with
          | .error e => .error (e.wrap lblLoadingAccountRecords)
          | .ok records =>
            if records.length = 0 then
              .ok []
            else
              match loadSigners handler (accountIDS records) with
              | .error e => .error e
              | .ok signers =>
                match loadTrustlines handler (accountIDS records) with
                | .error e => .error e
                | .ok trustlines =>
                  match loadData handler (accountIDS records) with
                  | .error e => .error e
                  | .ok data =>
                    .ok (records.map (fun record =>
                      let s := (mapFind signers record.accountID).getD []
                      let t := (mapFind trustlines record.accountID).getD []
                      let d := (mapFind data record.accountID).getD []
                      Pageable.account (PopulateAccountEntry record d s t)))
      else
        match r.signerAccountID with
        | .error e => .error e
        | .ok signer =>
          match handler.accountsForSigner signer pq with
          | .error e => .error (e.wrap lblLoadingAccountRecords)
          | .ok records =>
            .ok (records.map (fun record =>
              Pageable.accountSigner (PopulateAccountSigner record)))

/-! ### Properties of the grouping map -/

/-- Looking up after an assignment: the assigned key now yields the new
value, every other key is unchanged. -/
theorem mapFind_mapInsert {α : Type} (m : AMap α) (k k2 : String) (v : α) :
    mapFind (mapInsert m k v) k2 = if k = k2 then some v else mapFind m k2 := by
  induction m with
  | nil => simp [mapInsert, mapFind]
  | cons p rest ih =>
    obtain ⟨k1, w⟩ := p
    by_cases h1 : k1 = k
    · subst h1
      by_cases h2 : k1 = k2 <;> simp [mapInsert, mapFind, h2]
    · by_cases h2 : k1 = k2
      · subst h2
        have : k ≠ k1 := fun h => h1 h.symm
        simp [mapInsert, mapFind, h1, this, ih]
      · simp [mapInsert, mapFind, h1, h2, ih]

/-- One grouping step observed through `mapFind`: the stepped row's key now
holds its previous list (empty when absent) with the row appended; other
keys are untouched. -/
theorem mapFind_groupStep {α : Type} (key : α → String) (m : AMap (List α))
    (record : α) (k : String) :
    mapFind (groupStep key m record) k =
      if key record = k then some ((mapFind m (key record)).getD [] ++ [record])
      else mapFind m k := by
  unfold groupStep
  cases hm : mapFind m (key record) <;> simp [mapFind_mapInsert, hm]

/-- Invariant of the grouping fold: starting from any map `m`, the rows
whose key is `k` are appended, in order, to whatever `m` held at `k`. -/
theorem mapFind_foldl_groupStep {α : Type} [DecidableEq α] (key : α → String) (records : List α)
    (m : AMap (List α)) (k : String) :
    mapFind (records.foldl (groupStep key) m) k =
      if records.filter (fun r => key r == k) = [] then mapFind m k
      else some ((mapFind m k).getD [] ++ records.filter (fun r => key r == k)) := by
  induction records generalizing m with
  | nil => simp
  | cons r rs ih =>
    rw [List.foldl_cons, ih]
    by_cases hk : key r = k
    · have hfil : (r :: rs).filter (fun x => key x == k) =
          r :: rs.filter (fun x => key x == k) := by
        simp [List.filter_cons, hk]
      by_cases hrs : rs.filter (fun x => key x == k) = []
      · simp [hrs, hfil, mapFind_groupStep, hk]
      · simp [hrs, hfil, mapFind_groupStep, hk, List.append_assoc]
    · have hfil : (r :: rs).filter (fun x => key x == k) =
          rs.filter (fun x => key x == k) := by
        simp [List.filter_cons, hk]
      by_cases hrs : rs.filter (fun x => key x == k) = [] <;>
        simp [hrs, hfil, mapFind_groupStep, hk]

/-- The grouping loop maps each key to exactly the rows bearing it, in
query order; keys with no rows are absent. -/
theorem mapFind_groupByKey {α : Type} [DecidableEq α] (key : α → String) (records : List α)
    (k : String) :
    mapFind (groupByKey key records) k =
      if records.filter (fun r => key r == k) = [] then none
      else some (records.filter (fun r => key r == k)) := by
  rw [groupByKey, mapFind_foldl_groupStep]
  simp [mapFind]

/-- Reading the grouping map with an empty-list default yields exactly the
rows bearing the key, in query order. -/
theorem mapFind_groupByKey_getD {α : Type} [DecidableEq α] (key : α → String) (records : List α)
    (k : String) :
    (mapFind (groupByKey key records) k).getD [] =
      records.filter (fun r => key r == k) := by
  rw [mapFind_groupByKey]
  by_cases h : records.filter (fun r => key r == k) = [] <;> simp [h]

/-! ### Characterization of the two listing modes -/

/-- A by-asset page in which every store call succeeds: the result is one
full-account resource per base row, in base order, each carrying exactly
the child rows bearing its identifier (empty lists when it has none). -/
theorem getResourcePage_byAsset (hq : HistoryQ) (r : Request) (pq : PageQuery)
    (asset : Asset) (records : List AccountEntry) (srows : List AccountSigner)
    (trows : List TrustLine) (drows : List Data)
    (hpq : r.pageQuery = .ok pq) (hsig : r.rawSigner = .ok "")
    (hasset : r.asset = .ok asset)
    (hbase : hq.accountsForAsset asset pq = .ok records)
    (hs : hq.signersForAccounts (accountIDS records) = .ok srows)
    (ht : hq.getTrustLinesByAccountsID (accountIDS records) = .ok trows)
    (hd : hq.getAccountDataByAccountsID (accountIDS records) = .ok drows) :
    GetResourcePage hq r = .ok (records.map (fun record =>
      Pageable.account
        { accountID := record.accountID
          balance := record.balance
          signers := srows.filter (fun s => s.account == record.accountID)
          trustlines := trows.filter (fun t => t.accountID == record.accountID)
          dataEntries := drows.filter (fun d => d.accountID == record.accountID) })) := by
  rcases records with _ | ⟨a, as⟩
  · simp [GetResourcePage, hpq, hsig, hasset, hbase]
  · simp only [GetResourcePage, hpq, hsig, hasset, hbase, loadSigners, loadTrustlines,
      loadData, hs, ht, hd, String.length, List.length_cons, Nat.succ_ne_zero,
      if_false, if_true, List.length_nil, Nat.zero_eq]
    norm_num
    constructor
    · simp [PopulateAccountEntry, mapFind_groupByKey_getD]
    · intro record _
      simp [PopulateAccountEntry, mapFind_groupByKey_getD]

/-- A by-signer page in which every store call succeeds: the result is one
signer-summary resource per base row, in base order. -/
theorem getResourcePage_bySigner (hq : HistoryQ) (r : Request) (pq : PageQuery)
    (rawSigner : String) (signer : String) (records : List AccountSigner)
    (hpq : r.pageQuery = .ok pq) (hsig : r.rawSigner = .ok rawSigner)
    (hne : rawSigner.length ≠ 0) (hid : r.signerAccountID = .ok signer)
    (hbase : hq.accountsForSigner signer pq = .ok records) :
    GetResourcePage hq r = .ok (records.map (fun record =>
      Pageable.accountSigner (PopulateAccountSigner record))) := by
  simp [GetResourcePage, hpq, hsig, hne, hid, hbase]

/-! ### Concrete stores and requests used as test inputs -/

def strEmpty : String := ""

def idA : String := "A"

def idB : String := "B"

def sigS : String := "S"

def codeUSD : String := "USD"

def ordAsc : String := "asc"

def nameK : String := "k"

def valV : String := "v"

theorem strEmpty_length : strEmpty.length = 0 := rfl

theorem sigS_length : sigS.length = 1 := rfl

def pq0 : PageQuery := ⟨strEmpty, 10, ordAsc⟩

def asset0 : Asset := ⟨codeUSD, codeUSD, idB⟩

def entryA : AccountEntry := ⟨idA, 5⟩

def entryA2 : AccountEntry := ⟨idA, 7⟩

def signerRowA : AccountSigner := ⟨idA, sigS, 1⟩

def signerRowA2 : AccountSigner := ⟨idA, sigS, 3⟩

def signerRowB : AccountSigner := ⟨idB, sigS, 2⟩

def tlRowB : TrustLine := ⟨idB, codeUSD, 1⟩

def dataRowA : Data := ⟨idA, nameK, valV⟩

def coreAcct0 : CoreAccount := ⟨idA, 5, 1⟩

def acct0 : Account := ⟨idA, 5, [], [], []⟩

/-- A by-asset request: empty signer parameter, asset filter present. -/
def rByAsset : Request := ⟨.ok pq0, .ok strEmpty, .ok asset0, .ok sigS⟩

/-- A request carrying both a signer parameter and an asset filter. -/
def rBySigner : Request := ⟨.ok pq0, .ok sigS, .ok asset0, .ok sigS⟩

/-- Base query yields the same account twice; the signers batch load
reports, through its error code, how many times `idA` occurs in the
identifier list it was handed. -/
def hqC1 : HistoryQ :=
  { accountsForAsset := fun _ _ => .ok [entryA, entryA2]
    accountsForSigner := fun _ _ => .ok []
    getAccountDataByAccountsID := fun _ => .ok []
    getTrustLinesByAccountsID := fun _ => .ok []
    signersForAccounts := fun ids => .error ⟨.queryFail (ids.count idA), []⟩ }

/-- Base query yields the same account twice; all batch loads succeed. -/
def hqC1W : HistoryQ :=
  { accountsForAsset := fun _ _ => .ok [entryA, entryA2]
    accountsForSigner := fun _ _ => .ok []
    getAccountDataByAccountsID := fun _ => .ok []
    getTrustLinesByAccountsID := fun _ => .ok []
    signersForAccounts := fun _ => .ok [] }

/-- Same behaviour as `hqC1W` on the identifier list of the page, arbitrary
elsewhere. -/
def hqC1W2 : HistoryQ :=
  { accountsForAsset := fun _ _ => .ok [entryA, entryA2]
    accountsForSigner := fun _ _ => .ok []
    getAccountDataByAccountsID := fun _ => .ok []
    getTrustLinesByAccountsID := fun _ => .ok []
    signersForAccounts := fun ids =>
      if ids.length = 2 then .ok [] else .error ⟨.queryFail 0, []⟩ }

/-- Nonempty base page, failing signers batch load. -/
def hqC2 : HistoryQ :=
  { accountsForAsset := fun _ _ => .ok [entryA]
    accountsForSigner := fun _ _ => .ok []
    getAccountDataByAccountsID := fun _ => .ok []
    getTrustLinesByAccountsID := fun _ => .ok []
    signersForAccounts := fun _ => .error ⟨.queryFail 3, []⟩ }

/-- Empty base page and batch loaders that would all fail if consulted. -/
def hqC4 : HistoryQ :=
  { accountsForAsset := fun _ _ => .ok []
    accountsForSigner := fun _ _ => .ok []
    getAccountDataByAccountsID := fun _ => .error ⟨.queryFail 1, []⟩
    getTrustLinesByAccountsID := fun _ => .error ⟨.queryFail 2, []⟩
    signersForAccounts := fun _ => .error ⟨.queryFail 3, []⟩ }

/-- One signer row in by-signer mode; the asset query and every batch
loader would fail if consulted. -/
def hqC6 : HistoryQ :=
  { accountsForAsset := fun _ _ => .error ⟨.queryFail 4, []⟩
    accountsForSigner := fun _ _ => .ok [signerRowA]
    getAccountDataByAccountsID := fun _ => .error ⟨.queryFail 5, []⟩
    getTrustLinesByAccountsID := fun _ => .error ⟨.queryFail 6, []⟩
    signersForAccounts := fun _ => .error ⟨.queryFail 7, []⟩ }

/-- Same by-signer behaviour as `hqC6`, different everywhere else. -/
def hqC6b : HistoryQ :=
  { accountsForAsset := fun _ _ => .ok [entryA]
    accountsForSigner := fun _ _ => .ok [signerRowA]
    getAccountDataByAccountsID := fun _ => .ok []
    getTrustLinesByAccountsID := fun _ => .ok []
    signersForAccounts := fun _ => .ok [] }

/-- Batch loaders answering with interleaved rows of two accounts. -/
def hqC7 : HistoryQ :=
  { accountsForAsset := fun _ _ => .ok [entryA]
    accountsForSigner := fun _ _ => .ok []
    getAccountDataByAccountsID := fun _ => .ok [dataRowA]
    getTrustLinesByAccountsID := fun _ => .ok [tlRowB]
    signersForAccounts := fun _ => .ok [signerRowA, signerRowB, signerRowA2] }

/-- One base row for `idA`; child rows exist for `idB` only, or not at
all. -/
def hqC9 : HistoryQ :=
  { accountsForAsset := fun _ _ => .ok [entryA]
    accountsForSigner := fun _ _ => .ok []
    getAccountDataByAccountsID := fun _ => .ok []
    getTrustLinesByAccountsID := fun _ => .ok []
    signersForAccounts := fun _ => .ok [signerRowB] }

/-- One base row for `idA` with child rows of both accounts present. -/
def hqC8 : HistoryQ :=
  { accountsForAsset := fun _ _ => .ok [entryA]
    accountsForSigner := fun _ _ => .ok []
    getAccountDataByAccountsID := fun _ => .ok [dataRowA]
    getTrustLinesByAccountsID := fun _ => .ok [tlRowB]
    signersForAccounts := fun _ => .ok [signerRowA, signerRowB] }

/-- Two base rows for the same account, empty child tables. -/
def hqC10 : HistoryQ :=
  { accountsForAsset := fun _ _ => .ok [entryA, entryA2]
    accountsForSigner := fun _ _ => .ok []
    getAccountDataByAccountsID := fun _ => .ok []
    getTrustLinesByAccountsID := fun _ => .ok []
    signersForAccounts := fun _ => .ok [] }

/-- Authoritative store in which every lookup succeeds. -/
def cqOkBase : CoreQ :=
  { accountByAddress := fun _ => .ok coreAcct0
    allDataByAddress := fun _ => .ok []
    signersByAddress := fun _ => .ok []
    trustlinesByAddress := fun _ => .ok [] }

/-- Authoritative store whose account lookup finds no row. -/
def cqNF : CoreQ :=
  { accountByAddress := fun _ => .error ⟨.notFound, []⟩
    allDataByAddress := fun _ => .ok []
    signersByAddress := fun _ => .ok []
    trustlinesByAddress := fun _ => .ok [] }

/-- All lookups succeed and the populate step fails. -/
def envC3 : Env := ⟨cqOkBase, fun _ _ _ _ => (acct0, some ⟨.queryFail 9, []⟩)⟩

/-- All lookups and the populate step succeed. -/
def envPopOk : Env := ⟨cqOkBase, fun _ _ _ _ => (acct0, none)⟩

/-- The account lookup finds no row. -/
def envNF : Env := ⟨cqNF, fun _ _ _ _ => (acct0, none)⟩

/-! ### Claims -/

/-- C4: in by-asset mode, when the base account query returns zero rows,
`GetResourcePage` immediately returns the empty sequence; moreover the
result is the empty sequence for every store whose base query returns zero
rows, whatever its three batch loaders do — so none of `loadSigners`,
`loadTrustlines`, `loadData` is consulted. -/
theorem c4_empty_page_short_circuits (hq : HistoryQ) (r : Request)
    (pq : PageQuery) (asset : Asset)
    (hpq : r.pageQuery = .ok pq) (hsig : r.rawSigner = .ok strEmpty)
    (hasset : r.asset = .ok asset)
    (hbase : hq.accountsForAsset asset pq = .ok []) :
    GetResourcePage hq r = .ok [] ∧
    ∀ hq2 : HistoryQ, hq2.accountsForAsset asset pq = .ok [] →
      GetResourcePage hq2 r = .ok [] := by
  constructor
  · simp [GetResourcePage, hpq, hsig, hasset, hbase, strEmpty_length]
  · intro hq2 h2
    simp [GetResourcePage, hpq, hsig, hasset, h2, strEmpty_length]

/-- C4 witness: on `hqC4`, whose three batch loaders all fail, the empty
base page still yields the empty sequence with no error. -/
theorem c4_empty_page_short_circuits_witness :
    GetResourcePage hqC4 rByAsset = .ok [] :=
  (c4_empty_page_short_circuits hqC4 rByAsset pq0 asset0 rfl rfl rfl rfl).2
    hqC4 rfl

/-- C5: when the account-state lookup of the authoritative store signals
that no row exists, `AccountInfo` returns no resource and an error that
still carries the not-found cause under the lookup's label — propagated,
not masked. -/
theorem c5_not_found_propagated (env : Env) (addr : String) (e : Err)
    (h : env.cq.accountByAddress addr = .error e)
    (hnf : e.base = .notFound) :
    AccountInfo env addr = (none, some (e.wrap lblCoreAccountRecord)) ∧
    (e.wrap lblCoreAccountRecord).base = ErrBase.notFound := by
  constructor
  · simp [AccountInfo, h]
  · simp [Err.wrap, hnf]

/-- C5 witness: on `envNF` the lookup of `idA` finds no row and the call
yields no resource together with an error whose base is still the
not-found signal. -/
theorem c5_not_found_propagated_witness :
    AccountInfo envNF idA =
      (none, some (Err.wrap lblCoreAccountRecord ⟨ErrBase.notFound, []⟩)) ∧
    (Err.wrap lblCoreAccountRecord ⟨ErrBase.notFound, []⟩).base =
      ErrBase.notFound :=
  c5_not_found_propagated envNF idA ⟨ErrBase.notFound, []⟩ rfl rfl

/-- C6: whenever the signer parameter decodes to a nonempty string — in
particular when an asset filter is also present in the request — by-signer
mode runs: every element of a successful page is an `AccountSigner`-shaped
summary produced by the signer mapping, and the result depends only on the
by-signer base query, so the asset query and the three batch loaders are
never consulted. -/
theorem c6_signer_precedence (hq : HistoryQ) (r : Request) (pq : PageQuery)
    (rawSigner : String)
    (hpq : r.pageQuery = .ok pq) (hsig : r.rawSigner = .ok rawSigner)
    (hne : rawSigner.length ≠ 0) :
    (∀ l, GetResourcePage hq r = .ok l →
      ∀ x ∈ l, ∃ record, x = Pageable.accountSigner (PopulateAccountSigner record)) ∧
    (∀ hq2 : HistoryQ, hq2.accountsForSigner = hq.accountsForSigner →
      GetResourcePage hq2 r = GetResourcePage hq r) := by
  constructor
  · intro l hl x hx
    cases hid : r.signerAccountID with
    | error e => simp [GetResourcePage, hpq, hsig, hne, hid] at hl
    | ok signer =>
      cases hbase : hq.accountsForSigner signer pq with
      | error e => simp [GetResourcePage, hpq, hsig, hne, hid, hbase] at hl
      | ok records =>
        simp [GetResourcePage, hpq, hsig, hne, hid, hbase] at hl
        subst hl
        obtain ⟨record, _, hrec⟩ := List.mem_map.mp hx
        exact ⟨record, hrec.symm⟩
  · intro hq2 hagree
    simp [GetResourcePage, hpq, hsig, hne, hagree]

/-- C6 witness: `rBySigner` carries both a signer parameter and an asset
filter; on `hqC6`, whose asset query and batch loaders all fail, the page
equals the one computed by `hqC6b`, which agrees with it only on the
by-signer query — and it consists of one signer summary. -/
theorem c6_signer_precedence_witness :
    GetResourcePage hqC6b rBySigner = GetResourcePage hqC6 rBySigner ∧
    GetResourcePage hqC6 rBySigner =
      .ok [Pageable.accountSigner (PopulateAccountSigner signerRowA)] := by
  constructor
  · exact (c6_signer_precedence hqC6 rBySigner pq0 sigS rfl rfl
      (by rw [sigS_length]; exact Nat.one_ne_zero)).2 hqC6b rfl
  · rfl

/-- C7: whatever sequence of rows the underlying query returns, each batch
loader produces a mapping in which an account identifier is bound exactly
when it bears at least one row, and its list is exactly the rows bearing
it in the relative order the query returned them. -/
theorem c7_loaders_group_in_query_order (hq : HistoryQ) (accounts : List String)
    (drows : List Data) (trows : List TrustLine) (srows : List AccountSigner)
    (hd : hq.getAccountDataByAccountsID accounts = .ok drows)
    (ht : hq.getTrustLinesByAccountsID accounts = .ok trows)
    (hs : hq.signersForAccounts accounts = .ok srows) :
    (∃ m, loadData hq accounts = .ok m ∧ ∀ k,
      mapFind m k =
        if drows.filter (fun record => record.accountID == k) = [] then none
        else some (drows.filter (fun record => record.accountID == k))) ∧
    (∃ m, loadTrustlines hq accounts = .ok m ∧ ∀ k,
      mapFind m k =
        if trows.filter (fun record => record.accountID == k) = [] then none
        else some (trows.filter (fun record => record.accountID == k))) ∧
    (∃ m, loadSigners hq accounts = .ok m ∧ ∀ k,
      mapFind m k =
        if srows.filter (fun record => record.account == k) = [] then none
        else some (srows.filter (fun record => record.account == k))) := by
  refine ⟨⟨groupByKey (fun record => record.accountID) drows, ?_, ?_⟩,
    ⟨groupByKey (fun record => record.accountID) trows, ?_, ?_⟩,
    ⟨groupByKey (fun record => record.account) srows, ?_, ?_⟩⟩
  · simp [loadData, hd]
  · intro k; exact mapFind_groupByKey (fun record => record.accountID) drows k
  · simp [loadTrustlines, ht]
  · intro k; exact mapFind_groupByKey (fun record => record.accountID) trows k
  · simp [loadSigners, hs]
  · intro k; exact mapFind_groupByKey (fun record => record.account) srows k

/-- C7 witness: on `hqC7` the signers query interleaves rows of `idA` and
`idB`; the grouped mapping binds `idA` to its two rows in query order. -/
theorem c7_loaders_group_in_query_order_witness :
    ∃ m, loadSigners hqC7 [idA] = .ok m ∧ ∀ k,
      mapFind m k =
        if [signerRowA, signerRowB, signerRowA2].filter
            (fun record => record.account == k) = [] then none
        else some ([signerRowA, signerRowB, signerRowA2].filter
            (fun record => record.account == k)) :=
  (c7_loaders_group_in_query_order hqC7 [idA] [dataRowA] [tlRowB]
    [signerRowA, signerRowB, signerRowA2] rfl rfl rfl).2.2

/-- C8: in a successful by-asset page, every signer, trust line and data
entry attached to a resource bears that resource's own account
identifier. -/
theorem c8_no_cross_account_leakage (hq : HistoryQ) (r : Request)
    (pq : PageQuery) (asset : Asset) (records : List AccountEntry)
    (srows : List AccountSigner) (trows : List TrustLine) (drows : List Data)
    (hpq : r.pageQuery = .ok pq) (hsig : r.rawSigner = .ok strEmpty)
    (hasset : r.asset = .ok asset)
    (hbase : hq.accountsForAsset asset pq = .ok records)
    (hs : hq.signersForAccounts (accountIDS records) = .ok srows)
    (ht : hq.getTrustLinesByAccountsID (accountIDS records) = .ok trows)
    (hd : hq.getAccountDataByAccountsID (accountIDS records) = .ok drows) :
    ∀ l, GetResourcePage hq r = .ok l →
      ∀ a, Pageable.account a ∈ l →
        (∀ s ∈ a.signers, s.account = a.accountID) ∧
        (∀ t ∈ a.trustlines, t.accountID = a.accountID) ∧
        (∀ d ∈ a.dataEntries, d.accountID = a.accountID) := by
  intro l hl a ha
  rw [getResourcePage_byAsset hq r pq asset records srows trows drows hpq
    (by rw [hsig]; rfl) hasset hbase hs ht hd] at hl
  cases hl
  obtain ⟨record, _, hrec⟩ := List.mem_map.mp ha
  obtain rfl : a = _ := (Pageable.account.injEq _ _).mp hrec.symm
  refine ⟨?_, ?_, ?_⟩
  · intro s hmem
    simpa using (List.mem_filter.mp hmem).2
  · intro t hmem
    simpa using (List.mem_filter.mp hmem).2
  · intro d hmem
    simpa using (List.mem_filter.mp hmem).2

/-- C8 witness: on `hqC8` the single resource of the page keeps only its
own child rows, and each of them bears its identifier. -/
theorem c8_no_cross_account_leakage_witness :
    (∀ s ∈ Account.signers ⟨idA, 5, [signerRowA], [], [dataRowA]⟩,
      s.account = Account.accountID ⟨idA, 5, [signerRowA], [], [dataRowA]⟩) ∧
    (∀ t ∈ Account.trustlines ⟨idA, 5, [signerRowA], [], [dataRowA]⟩,
      t.accountID = Account.accountID ⟨idA, 5, [signerRowA], [], [dataRowA]⟩) ∧
    (∀ d ∈ Account.dataEntries ⟨idA, 5, [signerRowA], [], [dataRowA]⟩,
      d.accountID = Account.accountID ⟨idA, 5, [signerRowA], [], [dataRowA]⟩) :=
  c8_no_cross_account_leakage hqC8 rByAsset pq0 asset0 [entryA]
    [signerRowA, signerRowB] [tlRowB] [dataRowA] rfl rfl rfl rfl rfl rfl rfl
    [Pageable.account ⟨idA, 5, [signerRowA], [], [dataRowA]⟩] rfl
    ⟨idA, 5, [signerRowA], [], [dataRowA]⟩ (by simp)

/-- C9: in a successful by-asset page, when a batch-load mapping has no
key for a resource's account, the merge defaults that child kind to the
empty list — so an account with no signers, no trust lines or no data
entries carries an empty collection of that kind, never a missing one. -/
theorem c9_absent_children_default_empty (hq : HistoryQ) (r : Request)
    (pq : PageQuery) (asset : Asset) (records : List AccountEntry)
    (srows : List AccountSigner) (trows : List TrustLine) (drows : List Data)
    (hpq : r.pageQuery = .ok pq) (hsig : r.rawSigner = .ok strEmpty)
    (hasset : r.asset = .ok asset)
    (hbase : hq.accountsForAsset asset pq = .ok records)
    (hs : hq.signersForAccounts (accountIDS records) = .ok srows)
    (ht : hq.getTrustLinesByAccountsID (accountIDS records) = .ok trows)
    (hd : hq.getAccountDataByAccountsID (accountIDS records) = .ok drows) :
    ∀ l, GetResourcePage hq r = .ok l →
      ∀ a, Pageable.account a ∈ l →
        (∀ m, loadSigners hq (accountIDS records) = .ok m →
          mapFind m a.accountID = none → a.signers = []) ∧
        (∀ m, loadTrustlines hq (accountIDS records) = .ok m →
          mapFind m a.accountID = none → a.trustlines = []) ∧
        (∀ m, loadData hq (accountIDS records) = .ok m →
          mapFind m a.accountID = none → a.dataEntries = []) := by
  intro l hl a ha
  rw [getResourcePage_byAsset hq r pq asset records srows trows drows hpq
    (by rw [hsig]; rfl) hasset hbase hs ht hd] at hl
  cases hl
  obtain ⟨record, _, hrec⟩ := List.mem_map.mp ha
  obtain rfl : a = _ := (Pageable.account.injEq _ _).mp hrec.symm
  refine ⟨?_, ?_, ?_⟩
  · intro m hm hnone
    simp only [loadSigners, hs] at hm
    cases hm
    simp_all [mapFind_groupByKey]
  · intro m hm hnone
    simp only [loadTrustlines, ht] at hm
    cases hm
    simp_all [mapFind_groupByKey]
  · intro m hm hnone
    simp only [loadData, hd] at hm
    cases hm
    simp_all [mapFind_groupByKey]

/-- C9 witness: on `hqC9` the only signer row belongs to `idB`, the trust
line and data tables are empty; the resource for `idA` carries three empty
collections because each mapping lacks its key. -/
theorem c9_absent_children_default_empty_witness :
    (Account.signers ⟨idA, 5, [], [], []⟩ = [] ∧
     Account.trustlines ⟨idA, 5, [], [], []⟩ = [] ∧
     Account.dataEntries ⟨idA, 5, [], [], []⟩ = []) := by
  have h := c9_absent_children_default_empty hqC9 rByAsset pq0 asset0 [entryA]
    [signerRowB] [] [] rfl rfl rfl rfl rfl rfl rfl
    [Pageable.account ⟨idA, 5, [], [], []⟩] rfl
    ⟨idA, 5, [], [], []⟩ (by simp)
  exact ⟨h.1 (groupByKey (fun record => record.account) [signerRowB]) rfl rfl,
    h.2.1 (groupByKey (fun record => record.accountID) ([] : List TrustLine)) rfl rfl,
    h.2.2 (groupByKey (fun record => record.accountID) ([] : List Data)) rfl rfl⟩

/-- C10: in both listing modes a successful page holds exactly one
resource per base-query row, in base order — in by-asset mode one full
resource per row (so an account appearing in several base rows yields that
many resources, as with `entryA` and `entryA2`), in by-signer mode one
summary per row — and the page length equals the number of base rows. -/
theorem c10_one_resource_per_base_row (hq : HistoryQ) (r : Request)
    (pq : PageQuery) (hpq : r.pageQuery = .ok pq) :
    (∀ (asset : Asset) (records : List AccountEntry)
      (srows : List AccountSigner) (trows : List TrustLine) (drows : List Data),
      r.rawSigner = .ok strEmpty → r.asset = .ok asset →
      hq.accountsForAsset asset pq = .ok records →
      hq.signersForAccounts (accountIDS records) = .ok srows →
      hq.getTrustLinesByAccountsID (accountIDS records) = .ok trows →
      hq.getAccountDataByAccountsID (accountIDS records) = .ok drows →
      GetResourcePage hq r = .ok (records.map (fun record =>
        Pageable.account (PopulateAccountEntry record
          (drows.filter (fun d => d.accountID == record.accountID))
          (srows.filter (fun s => s.account == record.accountID))
          (trows.filter (fun t => t.accountID == record.accountID))))) ∧
      (∀ l, GetResourcePage hq r = .ok l → l.length = records.length)) ∧
    (∀ (rawSigner signer : String) (records : List AccountSigner),
      r.rawSigner = .ok rawSigner → rawSigner.length ≠ 0 →
      r.signerAccountID = .ok signer →
      hq.accountsForSigner signer pq = .ok records →
      GetResourcePage hq r = .ok (records.map (fun record =>
        Pageable.accountSigner (PopulateAccountSigner record))) ∧
      (∀ l, GetResourcePage hq r = .ok l → l.length = records.length)) := by
  constructor
  · intro asset records srows trows drows hsig hasset hbase hs ht hd
    have hpage := getResourcePage_byAsset hq r pq asset records srows trows
      drows hpq (by rw [hsig]; rfl) hasset hbase hs ht hd
    constructor
    · exact hpage
    · intro l hl
      rw [hpage] at hl
      cases hl
      simp
  · intro rawSigner signer records hsig hne hid hbase
    have hpage := getResourcePage_bySigner hq r pq rawSigner signer records
      hpq hsig hne hid hbase
    constructor
    · exact hpage
    · intro l hl
      rw [hpage] at hl
      cases hl
      simp

/-- C10 witness: `hqC10` returns the same account in two base rows; the
page holds two separate full resources, one per row, in base order. -/
theorem c10_one_resource_per_base_row_witness :
    GetResourcePage hqC10 rByAsset =
      .ok [Pageable.account (PopulateAccountEntry entryA [] [] []),
        Pageable.account (PopulateAccountEntry entryA2 [] [] [])] ∧
    ∀ l, GetResourcePage hqC10 rByAsset = .ok l → l.length = 2 :=
  (c10_one_resource_per_base_row hqC10 rByAsset pq0 rfl).1 asset0
    [entryA, entryA2] [] [] [] rfl rfl rfl rfl rfl rfl

/-- Occurrences of an identifier in the `accountIDS` list: one per base
row bearing it — duplicates are not removed. -/
theorem count_accountIDS (records : List AccountEntry) (k : String) :
    (accountIDS records).count k =
      (records.filter (fun record => record.accountID == k)).length := by
  induction records with
  | nil => rfl
  | cons a as ih =>
    simp only [accountIDS, List.map_cons, List.count_cons, List.filter_cons] at *
    by_cases h : a.accountID = k
    · simp [h, ih]
    · simp [h, ih]

/-- C1 counterexample: with two base rows for the same account, the
identifier list handed to the batch loaders holds that identifier twice,
not once; `hqC1`'s signers loader reports through its error code how many
occurrences of `idA` it observed in the list it received, and the page
call surfaces 2. -/
theorem c1_counterexample :
    (accountIDS [entryA, entryA2]).count idA = 2 ∧
    GetResourcePage hqC1 rByAsset = .error ⟨.queryFail 2, []⟩ := ⟨rfl, rfl⟩

/-- C1 (amended): before the three batch loads, `GetResourcePage` collects
the account identifiers of the page as `accountIDS records` — one
identifier per base row, duplicates preserved, so an identifier occurs
once per row bearing it rather than exactly once.  The page result depends
on the loaders only through their answers on that one list. -/
theorem c1_ids_once_per_base_row (hq hq2 : HistoryQ) (r : Request)
    (pq : PageQuery) (asset : Asset) (records : List AccountEntry) (k : String)
    (hpq : r.pageQuery = .ok pq) (hsig : r.rawSigner = .ok strEmpty)
    (hasset : r.asset = .ok asset)
    (hbase : hq.accountsForAsset asset pq = .ok records)
    (hbase2 : hq2.accountsForAsset asset pq = .ok records)
    (hs : hq2.signersForAccounts (accountIDS records) =
      hq.signersForAccounts (accountIDS records))
    (ht : hq2.getTrustLinesByAccountsID (accountIDS records) =
      hq.getTrustLinesByAccountsID (accountIDS records))
    (hd : hq2.getAccountDataByAccountsID (accountIDS records) =
      hq.getAccountDataByAccountsID (accountIDS records)) :
    GetResourcePage hq2 r = GetResourcePage hq r ∧
    (accountIDS records).count k =
      (records.filter (fun record => record.accountID == k)).length := by
  constructor
  · simp [GetResourcePage, hpq, hsig, hasset, hbase, hbase2, strEmpty_length,
      loadSigners, loadTrustlines, loadData, hs, ht, hd]
  · exact count_accountIDS records k

/-- C1 witness: `hqC1W2` answers like `hqC1W` on the page's identifier
list (and may differ elsewhere); the two page calls agree, and `idA`
occurs in the identifier list once per base row — twice. -/
theorem c1_ids_once_per_base_row_witness :
    GetResourcePage hqC1W2 rByAsset = GetResourcePage hqC1W rByAsset ∧
    (accountIDS [entryA, entryA2]).count idA =
      ([entryA, entryA2].filter (fun record => record.accountID == idA)).length :=
  c1_ids_once_per_base_row hqC1W hqC1W2 rByAsset pq0 asset0 [entryA, entryA2]
    idA rfl rfl rfl rfl rfl rfl rfl rfl

/-- C2 counterexample: on `hqC2` the signers batch load fails with a bare
error and `GetResourcePage` returns it with an empty label list — the
batch-load failure is propagated but not wrapped with a label naming the
batch load. -/
theorem c2_counterexample :
    GetResourcePage hqC2 rByAsset = .error ⟨.queryFail 3, []⟩ ∧
    Err.labels ⟨.queryFail 3, []⟩ = [] := ⟨rfl, rfl⟩

/-- C2 (amended): every failing store call aborts the operation and its
error is propagated with the cause intact — never swallowed; the four
single-account lookups and the base page query of either mode are wrapped
with a label naming the lookup, while a failure of any of the three batch
loads in by-asset mode is propagated unmodified, with no additional
label. -/
theorem c2_error_propagation (env : Env) (addr : String) (hq : HistoryQ)
    (r : Request) (pq : PageQuery) (asset : Asset) (e : Err) :
    (env.cq.accountByAddress addr = .error e →
      AccountInfo env addr =
        (none, some ⟨e.base, lblCoreAccountRecord :: e.labels⟩)) ∧
    (∀ cr, env.cq.accountByAddress addr = .ok cr →
      env.cq.allDataByAddress addr = .error e →
      AccountInfo env addr =
        (none, some ⟨e.base, lblCoreAccountData :: e.labels⟩)) ∧
    (∀ cr cd, env.cq.accountByAddress addr = .ok cr →
      env.cq.allDataByAddress addr = .ok cd →
      env.cq.signersByAddress addr = .error e →
      AccountInfo env addr =
        (none, some ⟨e.base, lblCoreSigner :: e.labels⟩)) ∧
    (∀ cr cd cs, env.cq.accountByAddress addr = .ok cr →
      env.cq.allDataByAddress addr = .ok cd →
      env.cq.signersByAddress addr = .ok cs →
      env.cq.trustlinesByAddress addr = .error e →
      AccountInfo env addr =
        (none, some ⟨e.base, lblCoreTrustline :: e.labels⟩)) ∧
    (r.pageQuery = .ok pq → r.rawSigner = .ok strEmpty → r.asset = .ok asset →
      hq.accountsForAsset asset pq = .error e →
      GetResourcePage hq r =
        .error ⟨e.base, lblLoadingAccountRecords :: e.labels⟩) ∧
    (∀ a records, r.pageQuery = .ok pq → r.rawSigner = .ok strEmpty →
      r.asset = .ok asset →
      hq.accountsForAsset asset pq = .ok (a :: records) →
      hq.signersForAccounts (accountIDS (a :: records)) = .error e →
      GetResourcePage hq r = .error e) ∧
    (∀ a records srows, r.pageQuery = .ok pq → r.rawSigner = .ok strEmpty →
      r.asset = .ok asset →
      hq.accountsForAsset asset pq = .ok (a :: records) →
      hq.signersForAccounts (accountIDS (a :: records)) = .ok srows →
      hq.getTrustLinesByAccountsID (accountIDS (a :: records)) = .error e →
      GetResourcePage hq r = .error e) ∧
    (∀ a records srows trows, r.pageQuery = .ok pq →
      r.rawSigner = .ok strEmpty → r.asset = .ok asset →
      hq.accountsForAsset asset pq = .ok (a :: records) →
      hq.signersForAccounts (accountIDS (a :: records)) = .ok srows →
      hq.getTrustLinesByAccountsID (accountIDS (a :: records)) = .ok trows →
      hq.getAccountDataByAccountsID (accountIDS (a :: records)) = .error e →
      GetResourcePage hq r = .error e) ∧
    (∀ rawSigner signer, r.pageQuery = .ok pq →
      r.rawSigner = .ok rawSigner → rawSigner.length ≠ 0 →
      r.signerAccountID = .ok signer →
      hq.accountsForSigner signer pq = .error e →
      GetResourcePage hq r =
        .error ⟨e.base, lblLoadingAccountRecords :: e.labels⟩) := by
  refine ⟨?_, ?_, ?_, ?_, ?_, ?_, ?_, ?_, ?_⟩
  · intro h
    simp [AccountInfo, h, Err.wrap]
  · intro cr h1 h2
    simp [AccountInfo, h1, h2, Err.wrap]
  · intro cr cd h1 h2 h3
    simp [AccountInfo, h1, h2, h3, Err.wrap]
  · intro cr cd cs h1 h2 h3 h4
    simp [AccountInfo, h1, h2, h3, h4, Err.wrap]
  · intro h1 h2 h3 h4
    simp [GetResourcePage, h1, h2, h3, h4, strEmpty_length, Err.wrap]
  · intro a records h1 h2 h3 h4 h5
    simp [GetResourcePage, h1, h2, h3, h4, strEmpty_length, loadSigners, h5]
  · intro a records srows h1 h2 h3 h4 h5 h6
    simp [GetResourcePage, h1, h2, h3, h4, strEmpty_length, loadSigners,
      loadTrustlines, h5, h6]
  · intro a records srows trows h1 h2 h3 h4 h5 h6 h7
    simp [GetResourcePage, h1, h2, h3, h4, strEmpty_length, loadSigners,
      loadTrustlines, loadData, h5, h6, h7]
  · intro rawSigner signer h1 h2 hne h3 h4
    simp [GetResourcePage, h1, h2, hne, h3, h4, Err.wrap]

/-- C2 witness: a failing account lookup comes back labelled with the
account-record label and the not-found cause intact. -/
theorem c2_error_propagation_witness :
    AccountInfo envNF idA =
      (none, some ⟨ErrBase.notFound, [lblCoreAccountRecord]⟩) :=
  (c2_error_propagation envNF idA hqC2 rByAsset pq0 asset0
    ⟨ErrBase.notFound, []⟩).1 rfl

/-- C3 counterexample: on `envC3` all four lookups succeed and the
populate step fails, yet `AccountInfo` returns the assembled resource
together with the wrapped error — a resource and an error at once, so the
call is not error-xor-resource when populate fails. -/
theorem c3_counterexample :
    AccountInfo envC3 idA =
      (some acct0, some ⟨.queryFail 9, [lblPopulatingAccount]⟩) ∧
    (AccountInfo envC3 idA).1.isSome = true ∧
    (AccountInfo envC3 idA).2.isSome = true := ⟨rfl, rfl, rfl⟩

/-- C3 (amended): when any of the four store lookups fails, `AccountInfo`
returns no resource alongside the error; when all four succeed it returns
the populate step's resource — alone when populate succeeds, and together
with the wrapped populate error when populate fails, so callers must
check the error before using the resource. -/
theorem c3_resource_error_pairing (env : Env) (addr : String) :
    (∀ e, env.cq.accountByAddress addr = .error e →
      (AccountInfo env addr).1 = none) ∧
    (∀ e, env.cq.allDataByAddress addr = .error e →
      (AccountInfo env addr).1 = none) ∧
    (∀ e, env.cq.signersByAddress addr = .error e →
      (AccountInfo env addr).1 = none) ∧
    (∀ e, env.cq.trustlinesByAddress addr = .error e →
      (AccountInfo env addr).1 = none) ∧
    (∀ cr cd cs ct res,
      env.cq.accountByAddress addr = .ok cr →
      env.cq.allDataByAddress addr = .ok cd →
      env.cq.signersByAddress addr = .ok cs →
      env.cq.trustlinesByAddress addr = .ok ct →
      env.populateAccount cr cd cs ct = (res, none) →
      AccountInfo env addr = (some res, none)) ∧
    (∀ cr cd cs ct res e,
      env.cq.accountByAddress addr = .ok cr →
      env.cq.allDataByAddress addr = .ok cd →
      env.cq.signersByAddress addr = .ok cs →
      env.cq.trustlinesByAddress addr = .ok ct →
      env.populateAccount cr cd cs ct = (res, some e) →
      AccountInfo env addr =
        (some res, some (e.wrap lblPopulatingAccount))) := by
  refine ⟨?_, ?_, ?_, ?_, ?_, ?_⟩
  · intro e h
    simp [AccountInfo, h]
  · intro e h
    cases h1 : env.cq.accountByAddress addr with
    | error e1 => simp [AccountInfo, h1]
    | ok cr => simp [AccountInfo, h1, h]
  · intro e h
    cases h1 : env.cq.accountByAddress addr with
    | error e1 => simp [AccountInfo, h1]
    | ok cr =>
      cases h2 : env.cq.allDataByAddress addr with
      | error e1 => simp [AccountInfo, h1, h2]
      | ok cd => simp [AccountInfo, h1, h2, h]
  · intro e h
    cases h1 : env.cq.accountByAddress addr with
    | error e1 => simp [AccountInfo, h1]
    | ok cr =>
      cases h2 : env.cq.allDataByAddress addr with
      | error e1 => simp [AccountInfo, h1, h2]
      | ok cd =>
        cases h3 : env.cq.signersByAddress addr with
        | error e1 => simp [AccountInfo, h1, h2, h3]
        | ok cs => simp [AccountInfo, h1, h2, h3, h]
  · intro cr cd cs ct res h1 h2 h3 h4 h5
    simp [AccountInfo, h1, h2, h3, h4, h5]
  · intro cr cd cs ct res e h1 h2 h3 h4 h5
    simp [AccountInfo, h1, h2, h3, h4, h5]

/-- C3 witness: with all lookups and the populate step succeeding, the
resource comes back alone, with no error. -/
theorem c3_resource_error_pairing_witness :
    AccountInfo envPopOk idA = (some acct0, none) :=
  (c3_resource_error_pairing envPopOk idA).2.2.2.2.1 coreAcct0 [] [] [] acct0
    rfl rfl rfl rfl rfl

end HorizonAccounts
